import Mathlib

/-!
Verification of the persisted background-job queue of the podcast-plow
repository (`server/services/jobs.py` and the enqueue endpoint of
`server/api/jobs.py`).

The embedding models:
* Python/JSON values (`PyVal`) including values `json.dumps` cannot encode;
* `json.dumps(..., sort_keys=True)` with explicit separators, raising
  `TypeError` on non-serializable values (`jsonDumpsVal`);
* SHA-256 (`sha256hex`), used by `compute_job_fingerprint`;
* the `job_queue` table as a list of rows (`JobRow`) and the queue
  operations `enqueue_job`, `dequeue_job`, `mark_job_done`,
  `mark_job_failed`, `update_job_progress` as state transformers, with the
  database clock (`now()`) passed explicitly and `random.uniform` passed as
  a function argument;
* the two-step (select then update, autocommit) claim operation of
  `dequeue_job` both as a sequential function and as interleavable steps of
  concurrent callers.

Timestamps are integers (seconds); the uniform jitter is a rational.
Exceptions are modelled with `Except PyErr`.
-/

namespace PodcastPlow

/-- Python exceptions relevant to the modelled code. -/
inductive PyErr where
  | typeError
  | zeroDivision
  | nameError
deriving DecidableEq

/-- A Python value as seen by the job queue: JSON-encodable constructors
plus `obj`, standing for any Python object `json.dumps` cannot encode
(a set, a function, ...). -/
inductive PyVal where
  | none
  | bool (b : Bool)
  | int (n : Int)
  | str (s : String)
  | list (xs : List PyVal)
  | dict (kvs : List (String × PyVal))
  | obj (tag : Nat)

/-- `str.strip()`: drop whitespace from both ends. -/
def pyStrip (s : String) : String :=
  ⟨((s.data.dropWhile Char.isWhitespace).reverse.dropWhile Char.isWhitespace).reverse⟩

/-- Hex digit characters used by `hashlib.sha256(...).hexdigest()` and by
JSON `\uXXXX` escapes. -/
def hexDigitChar (n : Nat) : Char :=
  match n with
  | 0 => '0' | 1 => '1' | 2 => '2' | 3 => '3'
  | 4 => '4' | 5 => '5' | 6 => '6' | 7 => '7'
  | 8 => '8' | 9 => '9' | 10 => 'a' | 11 => 'b'
  | 12 => 'c' | 13 => 'd' | 14 => 'e' | 15 => 'f'
  | _ => '0'

/-- JSON string escaping as performed by `json.dumps` with
`ensure_ascii=False`: only the two mandatory escapes, the short control
escapes and `\u00XX` for remaining control characters. -/
def jsonEscapeChar (c : Char) : String :=
  if c = '"' then "\\\""
  else if c = '\\' then "\\\\"
  else if c = '\n' then "\\n"
  else if c = '\t' then "\\t"
  else if c = '\r' then "\\r"
  else if c.toNat = 8 then "\\b"
  else if c.toNat = 12 then "\\f"
  else if c.toNat < 32 then
    "\\u00" ++ String.mk [hexDigitChar (c.toNat / 16), hexDigitChar (c.toNat % 16)]
  else String.mk [c]

def jsonQuote (s : String) : String :=
  "\"" ++ String.join (s.data.map jsonEscapeChar) ++ "\""

/-- Stable insertion used to model `sorted(payload.items())` performed by
`json.dumps(..., sort_keys=True)` (dict keys are unique, so stability is
irrelevant). Items are already rendered: the pair is (key, rendered value). -/
def insertByKey (x : String × String) : List (String × String) → List (String × String)
  | [] => [x]
  | y :: ys => if y.1 ≤ x.1 then y :: insertByKey x ys else x :: y :: ys

def sortByKey : List (String × String) → List (String × String)
  | [] => []
  | x :: xs => insertByKey x (sortByKey xs)

mutual

/-- `json.dumps(v, sort_keys=True, separators=(isep, ksep))`: raises
`TypeError` (modelled as `Except.error`) on any non-encodable value. -/
def jsonDumpsVal (isep ksep : String) : PyVal → Except PyErr String
  | PyVal.none => Except.ok "null"
  | PyVal.bool true => Except.ok "true"
  | PyVal.bool false => Except.ok "false"
  | PyVal.int n => Except.ok (toString n)
  | PyVal.str s => Except.ok (jsonQuote s)
  | PyVal.obj _ => Except.error PyErr.typeError
  | PyVal.list xs => do
      let parts ← jsonDumpsList isep ksep xs
      Except.ok ("[" ++ String.intercalate isep parts ++ "]")
  | PyVal.dict kvs => do
      let rendered ← jsonDumpsPairs isep ksep kvs
      let parts := (sortByKey rendered).map (fun kv => jsonQuote kv.1 ++ ksep ++ kv.2)
      Except.ok ("\x7b" ++ String.intercalate isep parts ++ "\x7d")

def jsonDumpsList (isep ksep : String) : List PyVal → Except PyErr (List String)
  | [] => Except.ok []
  | x :: xs => do
      let s ← jsonDumpsVal isep ksep x
      let rest ← jsonDumpsList isep ksep xs
      Except.ok (s :: rest)

def jsonDumpsPairs (isep ksep : String) :
    List (String × PyVal) → Except PyErr (List (String × String))
  | [] => Except.ok []
  | (k, v) :: xs => do
      let s ← jsonDumpsVal isep ksep v
      let rest ← jsonDumpsPairs isep ksep xs
      Except.ok ((k, s) :: rest)

end

mutual

/-- A value is JSON-serializable when it contains no `obj` leaf. -/
def serializableB : PyVal → Bool
  | PyVal.none => true
  | PyVal.bool _ => true
  | PyVal.int _ => true
  | PyVal.str _ => true
  | PyVal.obj _ => false
  | PyVal.list xs => serializableListB xs
  | PyVal.dict kvs => serializablePairsB kvs

def serializableListB : List PyVal → Bool
  | [] => true
  | x :: xs => serializableB x && serializableListB xs

def serializablePairsB : List (String × PyVal) → Bool
  | [] => true
  | (_, v) :: xs => serializableB v && serializablePairsB xs

end

/-- UTF-8 encoding of a character (the `.encode("utf-8")` applied to the
fingerprint message). -/
def utf8Bytes (c : Char) : List Nat :=
  let n := c.toNat
  if n < 128 then [n]
  else if n < 2048 then [192 + n / 64, 128 + n % 64]
  else if n < 65536 then [224 + n / 4096, 128 + (n / 64) % 64, 128 + n % 64]
  else [240 + n / 262144, 128 + (n / 4096) % 64, 128 + (n / 64) % 64, 128 + n % 64]

def strBytes (s : String) : List Nat :=
  (s.data.map utf8Bytes).flatten

/-! ### SHA-256 (`hashlib.sha256`) -/

def w32 (x : Nat) : Nat := x % 4294967296

def rotr (n x : Nat) : Nat := w32 ((x >>> n) ||| (x <<< (32 - n)))

def shaCh (x y z : Nat) : Nat := w32 ((x &&& y) ^^^ ((4294967295 - w32 x) &&& z))

def shaMaj (x y z : Nat) : Nat := w32 ((x &&& y) ^^^ (x &&& z) ^^^ (y &&& z))

def bigSigma0 (x : Nat) : Nat := (rotr 2 x) ^^^ (rotr 13 x) ^^^ (rotr 22 x)

def bigSigma1 (x : Nat) : Nat := (rotr 6 x) ^^^ (rotr 11 x) ^^^ (rotr 25 x)

def smallSigma0 (x : Nat) : Nat := (rotr 7 x) ^^^ (rotr 18 x) ^^^ (x >>> 3)

def smallSigma1 (x : Nat) : Nat := (rotr 17 x) ^^^ (rotr 19 x) ^^^ (x >>> 10)

def shaK : Array Nat := #[
  1116352408, 1899447441, 3049323471, 3921009573,
  961987163, 1508970993, 2453635748, 2870763221,
  3624381080, 310598401, 607225278, 1426881987,
  1925078388, 2162078206, 2614888103, 3248222580,
  3835390401, 4022224774, 264347078, 604807628,
  770255983, 1249150122, 1555081692, 1996064986,
  2554220882, 2821834349, 2952996808, 3210313671,
  3336571891, 3584528711, 113926993, 338241895,
  666307205, 773529912, 1294757372, 1396182291,
  1695183700, 1986661051, 2177026350, 2456956037,
  2730485921, 2820302411, 3259730800, 3345764771,
  3516065817, 3600352804, 4094571909, 275423344,
  430227734, 506948616, 659060556, 883997877,
  958139571, 1322822218, 1537002063, 1747873779,
  1955562222, 2024104815, 2227730452, 2361852424,
  2428436474, 2756734187, 3204031479, 3329325298]

structure Hash8 where
  a : Nat
  b : Nat
  c : Nat
  d : Nat
  e : Nat
  f : Nat
  g : Nat
  h : Nat

def shaInit : Hash8 :=
  ⟨1779033703, 3144134277, 1013904242, 2773480762,
   1359893119, 2600822924, 528734635, 1541459225⟩

/-- Big-endian grouping of bytes into 32-bit words. -/
def bytesToWords : List Nat → List Nat
  | b0 :: b1 :: b2 :: b3 :: rest => (((b0 * 256 + b1) * 256 + b2) * 256 + b3) :: bytesToWords rest
  | _ => []

/-- The 8-byte big-endian encoding of the 64-bit message bit length. -/
def lenBytes (n : Nat) : List Nat :=
  [n / 72057594037927936 % 256, n / 281474976710656 % 256, n / 1099511627776 % 256,
   n / 4294967296 % 256, n / 16777216 % 256, n / 65536 % 256, n / 256 % 256, n % 256]

/-- SHA-256 padding: append 0x80, zeros to 56 mod 64, then the bit length. -/
def sha256pad (msg : List Nat) : List Nat :=
  let L := msg.length
  let zeros := (119 - L % 64) % 64
  msg ++ 128 :: List.replicate zeros 0 ++ lenBytes (L * 8)

def chunks64 : List Nat → List (List Nat)
  | [] => []
  | x :: xs => (x :: xs).take 64 :: chunks64 ((x :: xs).drop 64)
termination_by l => l.length
decreasing_by simp [List.length_drop]; omega

/-- Extend the 16 block words to the 64-word message schedule. -/
def msgSchedule (w16 : List Nat) : Array Nat :=
  (List.range 48).foldl
    (fun ws _ =>
      let i := ws.size
      let s0 := smallSigma0 (ws.getD (i - 15) 0)
      let s1 := smallSigma1 (ws.getD (i - 2) 0)
      ws.push (w32 (ws.getD (i - 16) 0 + s0 + ws.getD (i - 7) 0 + s1)))
    (List.toArray w16)

def compressRound (k w : Nat) (s : Hash8) : Hash8 :=
  let t1 := w32 (s.h + bigSigma1 s.e + shaCh s.e s.f s.g + k + w)
  let t2 := w32 (bigSigma0 s.a + shaMaj s.a s.b s.c)
  ⟨w32 (t1 + t2), s.a, s.b, s.c, w32 (s.d + t1), s.e, s.f, s.g⟩

def compressBlock (H : Hash8) (block : List Nat) : Hash8 :=
  let ws := msgSchedule (bytesToWords block)
  let s := (List.range 64).foldl (fun s i => compressRound (shaK.getD i 0) (ws.getD i 0) s) H
  ⟨w32 (H.a + s.a), w32 (H.b + s.b), w32 (H.c + s.c), w32 (H.d + s.d),
   w32 (H.e + s.e), w32 (H.f + s.f), w32 (H.g + s.g), w32 (H.h + s.h)⟩

def sha256words (msg : List Nat) : List Nat :=
  let final := (chunks64 (sha256pad msg)).foldl compressBlock shaInit
  [final.a, final.b, final.c, final.d, final.e, final.f, final.g, final.h]

def word32HexChars (w : Nat) : List Char :=
  [hexDigitChar (w / 268435456 % 16), hexDigitChar (w / 16777216 % 16),
   hexDigitChar (w / 1048576 % 16), hexDigitChar (w / 65536 % 16),
   hexDigitChar (w / 4096 % 16), hexDigitChar (w / 256 % 16),
   hexDigitChar (w / 16 % 16), hexDigitChar (w % 16)]

def sha256hexChars (msg : List Nat) : List Char :=
  ((sha256words msg).map word32HexChars).flatten

/-- `hashlib.sha256(msg).hexdigest()`. -/
def sha256hex (msg : List Nat) : String :=
  String.mk (sha256hexChars msg)

/-! ### `compute_job_fingerprint` and `_serialize_payload` -/

/-- `compute_job_fingerprint(job_type, payload=None)` from
`server/services/jobs.py`: strips the type, defaults the payload to `{}`,
serializes with `json.dumps(payload, sort_keys=True, separators=(",", ":"),
ensure_ascii=False)` (which raises `TypeError` on non-serializable
payloads — there is no try/except here), then hashes
`f"{type}:{serialized}"` with SHA-256. -/
def compute_job_fingerprint (job_type : String) (payload : Option PyVal) :
    Except PyErr String := do
  let normalized_type := pyStrip job_type
  let normalized_payload := payload.getD (PyVal.dict [])
  let serialized ← jsonDumpsVal "," ":" normalized_payload
  Except.ok (sha256hex (strBytes (normalized_type ++ ":" ++ serialized)))

/-- `_serialize_payload`: `json.dumps(payload, sort_keys=True)` (default
separators), falling back to `json.dumps({})` on `TypeError`. -/
def serialize_payload (payload : PyVal) : String :=
  match jsonDumpsVal ", " ": " payload with
  | Except.ok s => s
  | Except.error _ => "\x7b\x7d"


/-! ### The `job_queue` table and the `Job` view -/

/-- A progress snapshot as written into the `result` column by
`update_job_progress` (the code stores its JSON serialization; the
serialization is injective on snapshots, so the row keeps the structured
value). -/
structure ProgressSnapshot where
  total_chunks : Int
  completed_chunks : Int
  current_chunk : Option Int
  percent_complete : ℚ
  updated_at : Int
  message : Option String
deriving DecidableEq

/-- A row of the `job_queue` table. `payload` holds the serialized JSON
text as inserted; timestamps are integer seconds, nullable columns are
`Option`. -/
structure JobRow where
  id : Int
  job_type : String
  payload : String
  status : String
  priority : Int
  run_at : Int
  next_run_at : Option Int
  attempts : Int
  max_attempts : Int
  last_error : Option String
  result : Option ProgressSnapshot
  created_at : Option Int
  updated_at : Option Int
  started_at : Option Int
  finished_at : Option Int
deriving DecidableEq

/-- `JOB_QUEUE_MAX_ATTEMPTS` unset: `_load_default_max_attempts` returns 3. -/
def DEFAULT_MAX_ATTEMPTS : Int := 3

/-- Modelled from the spec: the `job_queue` table schema is not in the
repository snapshot (only its SQL callers are), so the column defaults used
by `enqueue_job`'s INSERT come from the spec data model: generated
monotonically-assigned `id`, `status = queued`, `attempts = 0`, null
`last_error`/`result`/`started_at`/`finished_at`, and
`created_at`/`updated_at` lifecycle timestamps set at insert time. -/
def insertJobRow (nextId : Int) (now : Int) (job_type : String) (payload : String)
    (priority : Int) (run_at : Int) (next_run_at : Option Int) (max_attempts : Int) : JobRow :=
  { id := nextId
    job_type := job_type
    payload := payload
    status := "queued"
    priority := priority
    run_at := run_at
    next_run_at := next_run_at
    attempts := 0
    max_attempts := max_attempts
    last_error := Option.none
    result := Option.none
    created_at := some now
    updated_at := some now
    started_at := Option.none
    finished_at := Option.none }

/-- `enqueue_job(conn, job_type, payload=None, *, priority=0, run_at=None,
max_attempts=None)`: no validation of `job_type`; `payload or {}`;
`run_at` defaults to the current time; non-positive or missing
`max_attempts` falls back to `DEFAULT_MAX_ATTEMPTS`; the payload is
serialized with the defensive `_serialize_payload`; one row is inserted and
returned. Returns (new store, next id, returned Job). -/
def enqueue_job (store : List JobRow) (nextId : Int) (now : Int) (job_type : String)
    (payload : Option PyVal) (priority : Int) (run_at : Option Int)
    (max_attempts : Option Int) : List JobRow × Int × JobRow :=
  let payloadVal := payload.getD (PyVal.dict [])
  let run_at := run_at.getD now
  let effective_max_attempts :=
    match max_attempts with
    | some m => if m ≤ 0 then DEFAULT_MAX_ATTEMPTS else m
    | Option.none => DEFAULT_MAX_ATTEMPTS
  let serialized_payload := serialize_payload payloadVal
  let row := insertJobRow nextId now job_type serialized_payload priority run_at
    (some run_at) effective_max_attempts
  (store ++ [row], nextId + 1, row)

/-- The normalization `dequeue_job` applies to its `job_types` argument:
skip `None` entries (not representable here), strip each entry, drop the
blank ones; a falsy (`None` or empty) argument yields no filter. -/
def normalizeTypes (job_types : Option (List String)) : List String :=
  match job_types with
  | Option.none => []
  | some ts => ts.filterMap (fun t => let c := pyStrip t; if c = "" then Option.none else some c)

/-- The WHERE clause of `dequeue_job`'s SELECT: `status = 'queued' AND
run_at <= now()`, plus `job_type IN (...)` only when the *normalized* type
list is non-empty. -/
def eligibleB (now : Int) (types : List String) (r : JobRow) : Bool :=
  r.status = "queued" && decide (r.run_at ≤ now) && (types.isEmpty || types.contains r.job_type)

/-- `ORDER BY priority DESC, run_at, id`: `a` sorts strictly before `b`. -/
def better (a b : JobRow) : Bool :=
  decide (b.priority < a.priority) ||
    (a.priority = b.priority &&
      (decide (a.run_at < b.run_at) || (a.run_at = b.run_at && decide (a.id < b.id))))

/-- Keep the row sorting strictly first under `better`. -/
def selectStep (acc : Option JobRow) (r : JobRow) : Option JobRow :=
  match acc with
  | Option.none => some r
  | some a => if better r a then some r else some a

/-- `... ORDER BY ... LIMIT 1`: the first row of the sorted result. -/
def selectBest (l : List JobRow) : Option JobRow :=
  l.foldl selectStep Option.none

/-- The UPDATE statement of `dequeue_job`: set `status='running'`,
`attempts = attempts + 1`, `next_run_at = NULL`, `started_at = now()`,
`updated_at = now()` WHERE `id = job.id`. -/
def applyClaim (store : List JobRow) (jid : Int) (now : Int) : List JobRow :=
  store.map (fun r =>
    if r.id = jid then
      { r with status := "running", attempts := r.attempts + 1, next_run_at := Option.none,
               started_at := some now, updated_at := some now }
    else r)

/-- The in-place mutation of the returned `Job` object after the UPDATE
(`job.status = "running"; job.attempts += 1; job.next_run_at = None`). -/
def claimedView (row : JobRow) : JobRow :=
  { row with status := "running", attempts := row.attempts + 1, next_run_at := Option.none }

/-- `dequeue_job(conn, job_types=None)` run to completion without
interference: SELECT the best eligible row, then UPDATE it by id.
Returns (new store, returned job or None). -/
def dequeue_job (store : List JobRow) (now : Int) (job_types : Option (List String)) :
    List JobRow × Option JobRow :=
  match selectBest (store.filter (eligibleB now (normalizeTypes job_types))) with
  | Option.none => (store, Option.none)
  | some row => (applyClaim store row.id now, some (claimedView row))

/-- `mark_job_done(conn, job_id)`: unconditional UPDATE by id. -/
def mark_job_done (store : List JobRow) (job_id : Int) (now : Int) : List JobRow :=
  store.map (fun r =>
    if r.id = job_id then
      { r with status := "done", finished_at := some now, last_error := Option.none,
               next_run_at := Option.none, updated_at := some now }
    else r)

/-- Python `round` (banker's rounding: round half to even). -/
def pyRound (q : ℚ) : Int :=
  let f := ⌊q⌋
  let r := q - (f : ℚ)
  if r < 1 / 2 then f
  else if 1 / 2 < r then f + 1
  else if f % 2 = 0 then f else f + 1

/-- `_compute_backoff_delay(job, backoff_seconds)`: base is the explicit
backoff or `attempts * 60`, clamped to [30, 3600]; `random.uniform` (passed
as `uniform`) samples in [0.8*base, 1.2*base]; the rounded sample is
clamped again to [30, 3600]. -/
def compute_backoff_delay (job : JobRow) (backoff_seconds : Option Int)
    (uniform : ℚ → ℚ → ℚ) : Int :=
  let base : Int :=
    match backoff_seconds with
    | some b => b
    | Option.none => job.attempts * 60
  let base := max 30 (min base 3600)
  let jitter_low : ℚ := (base : ℚ) * (4 / 5)
  let jitter_high : ℚ := (base : ℚ) * (6 / 5)
  let delay := uniform jitter_low jitter_high
  max 30 (min (pyRound delay) 3600)

/-- The trimming/truncation `mark_job_failed` applies to its error message:
strip, then keep at most 2000 characters. -/
def truncMessage (error : String) : String :=
  let message := pyStrip error
  if 2000 < message.length then String.mk (message.data.take 2000) else message

/-- `message or None`: an empty message is stored as SQL NULL. -/
def messageOrNull (message : String) : Option String :=
  if message = "" then Option.none else some message

/-- `mark_job_failed(conn, job, error, *, backoff_seconds=None)`: terminal
failure when `job.attempts >= job.max_attempts`, otherwise requeue with the
jittered backoff delay. Mutates the store (UPDATE by id) and the passed
`job` object (returned second). -/
def mark_job_failed (store : List JobRow) (job : JobRow) (error : String)
    (backoff_seconds : Option Int) (uniform : ℚ → ℚ → ℚ) (now : Int) :
    List JobRow × JobRow :=
  let message := truncMessage error
  if job.max_attempts ≤ job.attempts then
    (store.map (fun r =>
      if r.id = job.id then
        { r with status := "failed", finished_at := some now,
                 last_error := messageOrNull message, next_run_at := Option.none,
                 updated_at := some now }
      else r),
     { job with status := "failed", finished_at := some now, next_run_at := Option.none })
  else
    let delay_seconds := compute_backoff_delay job backoff_seconds uniform
    let next_run := now + delay_seconds
    (store.map (fun r =>
      if r.id = job.id then
        { r with status := "queued", run_at := next_run, next_run_at := some next_run,
                 last_error := messageOrNull message, started_at := Option.none,
                 finished_at := Option.none, updated_at := some now }
      else r),
     { job with status := "queued", run_at := next_run, next_run_at := some next_run })

/-- Python float division, raising `ZeroDivisionError` on a zero divisor. -/
def pyDiv (a b : ℚ) : Except PyErr ℚ :=
  if b = 0 then Except.error PyErr.zeroDivision else Except.ok (a / b)

/-- `round(percent, 4)`. -/
def roundTo4 (q : ℚ) : ℚ := (pyRound (q * 10000) : ℚ) / 10000

/-- The `progress_payload` dict built by `update_job_progress`: clamp the
counters, compute `percent = min(1.0, completed / total)` only when
`total > 0` (the division is guarded), round to 4 digits, and include the
stripped message only when non-empty. -/
def buildProgress (now : Int) (total_chunks completed_chunks : Int)
    (current_chunk : Option Int) (message : Option String) :
    Except PyErr ProgressSnapshot := do
  let total := max total_chunks 0
  let completed := completed_chunks
  let completed := if 0 < total then max 0 (min completed total) else max 0 completed
  let current_value := current_chunk
  let percent : ℚ ←
    if 0 < total then do
      let q ← pyDiv (completed : ℚ) ((total : Int) : ℚ)
      Except.ok (min 1 q)
    else Except.ok 0
  let cleaned_message := pyStrip (message.getD "")
  Except.ok
    { total_chunks := total
      completed_chunks := completed
      current_chunk := current_value
      percent_complete := roundTo4 percent
      updated_at := now
      message := if cleaned_message = "" then Option.none else some cleaned_message }

/-- `update_job_progress(conn, job_id, *, total_chunks, completed_chunks,
current_chunk=None, message=None)`: build the snapshot, then UPDATE only
`result` and `updated_at` WHERE `id = job_id`. -/
def update_job_progress (store : List JobRow) (job_id : Int)
    (total_chunks completed_chunks : Int) (current_chunk : Option Int)
    (message : Option String) (now : Int) : Except PyErr (List JobRow) := do
  let snap ← buildProgress now total_chunks completed_chunks current_chunk message
  Except.ok (store.map (fun r =>
    if r.id = job_id then { r with result := some snap, updated_at := some now } else r))

/-! ### The `/jobs` enqueue endpoint (`server/api/jobs.py`) -/

def ACTIVE_STATUSES : List String := ["queued", "running"]

/-- `get_job(conn, job_id)`: `SELECT ... FROM job_queue WHERE id = %s`. -/
def get_job (store : List JobRow) (job_id : Int) : Option JobRow :=
  store.find? (fun r => r.id = job_id)

/-- The `JobSpec` validator `_strip_job_type` of the HTTP layer: strips the
value and rejects an empty result (pydantic turns the `ValueError` into a
422 response, so no row is inserted). -/
def jobSpecJobType (value : String) : Except String String :=
  let job_type := pyStrip value
  if job_type = "" then Except.error "job_type cannot be empty" else Except.ok job_type

/-- A row of the legacy `job` history table, as used by the dedupe lookup
(only the columns the lookup touches). -/
structure HistRow where
  id : Int
  job_type : String
  status : String
  fingerprint : Option String
deriving DecidableEq

/-- The persisted state the enqueue endpoint manipulates: the `job_queue`
table with its id sequence, and the `job` history table. -/
structure ApiState where
  queue : List JobRow
  nextId : Int
  history : List HistRow
deriving DecidableEq

/-- `SELECT ... FROM job WHERE fingerprint = %s ORDER BY id DESC LIMIT 1`. -/
def newestByFingerprint (history : List HistRow) (fp : String) : Option HistRow :=
  (history.filter (fun h => h.fingerprint = some fp)).foldl
    (fun acc h =>
      match acc with
      | Option.none => some h
      | some a => if a.id < h.id then some h else some a)
    Option.none

/-- One iteration of the `enqueue_jobs` loop plus the tail of the request,
from `server/api/jobs.py` lines 389-498. The connection is autocommit, so
the state is returned even when an exception escapes. The insert path
reaches lines 488-498, which evaluate the undefined names `row` and
`queued_job`: modelled as `NameError`. -/
def enqueueJobsLoop (dedupe : Bool) (priority : Int) (now : Int) :
    List (String × PyVal) → ApiState → List (String × JobRow) → List String →
    List Int → List Int → ApiState × Except PyErr (List Int × List Int)
  | [], st, _, _, accepted, reused => (st, Except.ok (accepted, reused))
  | (job_type, payload) :: rest, st, cache, misses, accepted, reused =>
    match compute_job_fingerprint job_type (some payload) with
    | Except.error e => (st, Except.error e)
    | Except.ok fingerprint =>
      let cacheHit : Option JobRow :=
        if dedupe then (cache.find? (fun kv => kv.1 = fingerprint)).map (fun kv => kv.2)
        else Option.none
      let existing_row : Option HistRow :=
        if dedupe && cacheHit.isNone && !(misses.contains fingerprint) then
          newestByFingerprint st.history fingerprint
        else Option.none
      let snapshot : Option JobRow :=
        match existing_row with
        | some candidate =>
          match get_job st.queue candidate.id with
          | some q => if ACTIVE_STATUSES.contains q.status then some q else Option.none
          | Option.none => Option.none
        | Option.none => Option.none
      let existing_job : Option JobRow :=
        if dedupe then
          match cacheHit with
          | some j => some j
          | Option.none => snapshot
        else Option.none
      let cache :=
        match snapshot with
        | some q => (fingerprint, q) :: cache
        | Option.none => cache
      let misses :=
        if dedupe && existing_job.isNone then fingerprint :: misses else misses
      match existing_job with
      | some j => enqueueJobsLoop dedupe priority now rest st cache misses accepted
          (reused ++ [j.id])
      | Option.none =>
        let enq := enqueue_job st.queue st.nextId now job_type (some payload) priority
          Option.none Option.none
        let queue_job := enq.2.2
        let hist := st.history ++
          [{ id := queue_job.id, job_type := queue_job.job_type, status := queue_job.status,
             fingerprint := some fingerprint }]
        let st := { queue := enq.1, nextId := enq.2.1, history := hist }
        -- thirteen lines later the handler evaluates the undefined name `row`
        (st, Except.error PyErr.nameError)

/-- `enqueue_jobs(request)` over the specs of one request. -/
def enqueue_jobs (dedupe : Bool) (priority : Int) (now : Int)
    (jobs : List (String × PyVal)) (st : ApiState) :
    ApiState × Except PyErr (List Int × List Int) :=
  enqueueJobsLoop dedupe priority now jobs st [] [] [] []

/-! ### The claim operation as two interleavable steps

`db_conn()` is autocommit and `dequeue_job` issues its SELECT and its
UPDATE as separate statements, so concurrent callers interleave at the
statement boundary. -/

/-- The per-caller control state of one `dequeue_job` call: not yet
selected, selected (holding the fetched row), or finished with the id it
returned. -/
inductive CallerState where
  | ready
  | mid (sel : Option JobRow)
  | finished (res : Option Int)
deriving DecidableEq

/-- One statement of one caller's `dequeue_job`. -/
def callerStep (now : Int) (job_types : Option (List String)) (store : List JobRow) :
    CallerState → List JobRow × CallerState
  | CallerState.ready =>
    (store, CallerState.mid (selectBest (store.filter (eligibleB now (normalizeTypes job_types)))))
  | CallerState.mid Option.none => (store, CallerState.finished Option.none)
  | CallerState.mid (some row) =>
    (applyClaim store row.id now, CallerState.finished (some row.id))
  | CallerState.finished r => (store, CallerState.finished r)

/-- Run a schedule (a list of caller indices) over the shared store. -/
def runSched (now : Int) (job_types : Option (List String)) :
    List Nat → List JobRow × List CallerState → List JobRow × List CallerState
  | [], st => st
  | i :: rest, (store, callers) =>
    match callers[i]? with
    | Option.none => runSched now job_types rest (store, callers)
    | some c =>
      let s := callerStep now job_types store c
      runSched now job_types rest (s.1, callers.set i s.2)

/-- `k` serialized `dequeue_job` calls: the list of returned ids (one entry
per call) and the final store. -/
def dequeueTrace (now : Int) (job_types : Option (List String)) :
    Nat → List JobRow → List (Option Int) × List JobRow
  | 0, store => ([], store)
  | Nat.succ k, store =>
    let s := dequeue_job store now job_types
    let rest := dequeueTrace now job_types k s.1
    ((s.2.map (fun j => j.id)) :: rest.1, rest.2)

/-! ### Helper lemmas: the `ORDER BY` relation and `LIMIT 1` selection -/

theorem better_iff {a b : JobRow} :
    better a b = true ↔
      (b.priority < a.priority ∨
        (a.priority = b.priority ∧
          (a.run_at < b.run_at ∨ (a.run_at = b.run_at ∧ a.id < b.id)))) := by
  simp [better]

theorem better_asymm {a b : JobRow} (h : better a b = true) : better b a = false := by
  rw [better_iff] at h
  by_cases hba : better b a = true
  · rw [better_iff] at hba
    omega
  · simpa using hba

theorem better_total {a b : JobRow} (h : a.id ≠ b.id) :
    better a b = true ∨ better b a = true := by
  rw [better_iff, better_iff]
  omega

theorem foldl_selectStep_mem :
    ∀ (l : List JobRow) (acc : Option JobRow) (m : JobRow),
      l.foldl selectStep acc = some m → acc = some m ∨ m ∈ l := by
  intro l
  induction l with
  | nil => intro acc m h; exact Or.inl h
  | cons r rest ih =>
    intro acc m h
    rcases ih (selectStep acc r) m h with hstep | hmem
    · cases acc with
      | none =>
        have hrm : r = m := by simpa [selectStep] using hstep
        exact Or.inr (by simp [hrm])
      | some a =>
        by_cases hb : better r a = true
        · have hrm : r = m := by simpa [selectStep, hb] using hstep
          exact Or.inr (by simp [hrm])
        · have ham : a = m := by simpa [selectStep, hb] using hstep
          exact Or.inl (by simp [ham])
    · exact Or.inr (List.mem_cons_of_mem r hmem)

theorem foldl_selectStep_best :
    ∀ (l : List JobRow) (acc : Option JobRow) (b : JobRow),
      (∀ r ∈ l, r = b ∨ better b r = true) →
      (∀ a, acc = some a → a = b ∨ better b a = true) →
      (b ∈ l ∨ acc = some b) →
      l.foldl selectStep acc = some b := by
  intro l
  induction l with
  | nil =>
    intro acc b _ hacc hin
    rcases hin with hmem | haccb
    · cases hmem
    · exact haccb
  | cons r rest ih =>
    intro acc b hall hacc hin
    apply ih (selectStep acc r) b (fun x hx => hall x (List.mem_cons_of_mem r hx))
    · intro a ha
      cases acc with
      | none =>
        have hra : r = a := by simpa [selectStep] using ha
        subst hra
        exact hall r (List.mem_cons_self r rest)
      | some a0 =>
        by_cases hb : better r a0 = true
        · have hra : r = a := by simpa [selectStep, hb] using ha
          subst hra
          exact hall r (List.mem_cons_self r rest)
        · have ha0 : a0 = a := by simpa [selectStep, hb] using ha
          subst ha0
          exact hacc a0 rfl
    · rcases hin with hmem | haccb
      · rcases List.mem_cons.mp hmem with hrb | hbrest
        · subst hrb
          right
          cases acc with
          | none => simp [selectStep]
          | some a0 =>
            rcases hacc a0 rfl with ha0b | hba0
            · subst ha0b
              simp [selectStep, ite_self]
            · simp [selectStep, hba0]
        · exact Or.inl hbrest
      · right
        cases acc with
        | none => cases haccb
        | some a0 =>
          have ha0 : a0 = b := Option.some.inj haccb
          subst ha0
          rcases hall r (List.mem_cons_self r rest) with hrb | hbr
          · subst hrb
            simp [selectStep, ite_self]
          · simp [selectStep, better_asymm hbr]

theorem foldl_selectStep_some :
    ∀ (l : List JobRow) (a : JobRow), l.foldl selectStep (some a) ≠ Option.none := by
  intro l
  induction l with
  | nil => intro a h; cases h
  | cons r rest ih =>
    intro a h
    by_cases hb : better r a = true
    · exact ih r (by simpa [selectStep, hb] using h)
    · exact ih a (by simpa [selectStep, hb] using h)

theorem selectBest_mem {l : List JobRow} {m : JobRow} (h : selectBest l = some m) : m ∈ l := by
  rcases foldl_selectStep_mem l Option.none m h with habs | hmem
  · cases habs
  · exact hmem

theorem selectBest_eq_best {l : List JobRow} {b : JobRow} (hb : b ∈ l)
    (hbest : ∀ r ∈ l, r = b ∨ better b r = true) : selectBest l = some b :=
  foldl_selectStep_best l Option.none b hbest (fun a ha => by cases ha) (Or.inl hb)

theorem selectBest_ne_none {l : List JobRow} (h : l ≠ []) : selectBest l ≠ Option.none := by
  cases l with
  | nil => exact absurd rfl h
  | cons r rest =>
    intro habs
    exact foldl_selectStep_some rest r (by simpa [selectBest, selectStep] using habs)

/-! ### Helper lemmas: UPDATE-by-id frame reasoning -/

theorem mem_map_update {g : JobRow → JobRow} {store : List JobRow} {r : JobRow} {jid : Int}
    (hr : r ∈ store) (hne : r.id ≠ jid) :
    r ∈ store.map (fun x => if x.id = jid then g x else x) := by
  have h := List.mem_map_of_mem (f := fun x => if x.id = jid then g x else x) hr
  simpa [hne] using h

/-! ### Helper lemmas: what a claim call can return and how it mutates -/

theorem eligible_queued {now : Int} {types : List String} {r : JobRow}
    (h : eligibleB now types r = true) : r.status = "queued" := by
  simp [eligibleB] at h
  exact h.1.1

theorem eligible_due {now : Int} {types : List String} {r : JobRow}
    (h : eligibleB now types r = true) : r.run_at ≤ now := by
  simp [eligibleB] at h
  exact h.1.2

/-- Shape analysis of `dequeue_job`: either nothing was eligible and the
store is untouched, or the best eligible row was claimed. -/
theorem dequeue_job_cases (store : List JobRow) (now : Int)
    (job_types : Option (List String)) :
    (selectBest (store.filter (eligibleB now (normalizeTypes job_types))) = Option.none ∧
      dequeue_job store now job_types = (store, Option.none)) ∨
    ∃ row, selectBest (store.filter (eligibleB now (normalizeTypes job_types))) = some row ∧
      dequeue_job store now job_types =
        (applyClaim store row.id now, some (claimedView row)) := by
  cases hsel : selectBest (store.filter (eligibleB now (normalizeTypes job_types))) with
  | none => exact Or.inl ⟨rfl, by simp [dequeue_job, hsel]⟩
  | some row => exact Or.inr ⟨row, rfl, by simp [dequeue_job, hsel]⟩

theorem notQueued_applyClaim {store : List JobRow} {jid now : Int} {a : Int}
    (h : ∀ r ∈ store, r.id = a → r.status ≠ "queued") :
    ∀ r ∈ applyClaim store jid now, r.id = a → r.status ≠ "queued" := by
  intro r hr hid
  rcases List.mem_map.mp hr with ⟨x, hx, hfx⟩
  by_cases hxid : x.id = jid
  · rw [← hfx]
    simp [applyClaim, hxid]
  · rw [if_neg hxid] at hfx
    subst hfx
    exact h x hx hid

theorem notQueued_dequeue {store : List JobRow} {now : Int}
    {job_types : Option (List String)} {a : Int}
    (h : ∀ r ∈ store, r.id = a → r.status ≠ "queued") :
    ∀ r ∈ (dequeue_job store now job_types).1, r.id = a → r.status ≠ "queued" := by
  rcases dequeue_job_cases store now job_types with ⟨_, heq⟩ | ⟨row, _, heq⟩
  · rw [heq]
    exact h
  · rw [heq]
    exact notQueued_applyClaim h

theorem dequeue_ret_not_id {store : List JobRow} {now : Int}
    {job_types : Option (List String)} {a : Int}
    (h : ∀ r ∈ store, r.id = a → r.status ≠ "queued") {j : JobRow}
    (hj : (dequeue_job store now job_types).2 = some j) : j.id ≠ a := by
  rcases dequeue_job_cases store now job_types with ⟨_, heq⟩ | ⟨row, hsel, heq⟩
  · rw [heq] at hj
    cases hj
  · rw [heq] at hj
    have hjrow : j = claimedView row := (Option.some.inj hj).symm
    have hrowmem := selectBest_mem hsel
    have hrowelig := (List.mem_filter.mp hrowmem).2
    have hrowstore := (List.mem_filter.mp hrowmem).1
    intro hideq
    have hid : row.id = a := by
      rw [hjrow] at hideq
      simpa [claimedView] using hideq
    exact h row hrowstore hid (eligible_queued hrowelig)

theorem dequeue_post_notQueued {store : List JobRow} {now : Int}
    {job_types : Option (List String)} {s2 : List JobRow} {j : JobRow}
    (h : dequeue_job store now job_types = (s2, some j)) :
    ∀ r ∈ s2, r.id = j.id → r.status ≠ "queued" := by
  rcases dequeue_job_cases store now job_types with ⟨_, heq⟩ | ⟨row, hsel, heq⟩
  · rw [heq] at h
    cases (Prod.mk.injEq _ _ _ _ ▸ h).2
  · rw [heq] at h
    have hs2 : applyClaim store row.id now = s2 := congrArg Prod.fst h
    have hj : some (claimedView row) = some j := congrArg Prod.snd h
    have hjid : j.id = row.id := by
      rw [← Option.some.inj hj]
      simp [claimedView]
    intro r hr hid
    rw [← hs2] at hr
    rcases List.mem_map.mp hr with ⟨x, _, hfx⟩
    by_cases hxid : x.id = row.id
    · rw [← hfx]
      simp [hxid]
    · rw [if_neg hxid] at hfx
      subst hfx
      rw [hjid] at hid
      exact absurd hid hxid

/-- Once no row of a given id is `queued`, no later serialized claim call
ever returns that id. -/
theorem trace_not_returned {a : Int} :
    ∀ (k : Nat) (store : List JobRow) (now : Int) (job_types : Option (List String)),
      (∀ r ∈ store, r.id = a → r.status ≠ "queued") →
      ∀ x ∈ (dequeueTrace now job_types k store).1, ∀ b : Int, x = some b → b ≠ a := by
  intro k
  induction k with
  | zero =>
    intro store now job_types _ x hx
    simp [dequeueTrace] at hx
  | succ k ih =>
    intro store now job_types h x hx b hxb
    rw [dequeueTrace] at hx
    rcases List.mem_cons.mp hx with hhead | htail
    · subst hhead
      rcases Option.map_eq_some'.mp hxb with ⟨j, hj, hjb⟩
      subst hjb
      exact dequeue_ret_not_id h hj
    · exact ih (dequeue_job store now job_types).1 now job_types (notQueued_dequeue h)
        x htail b hxb

/-! ### Concrete fixtures for counterexamples and witnesses -/

/-- A queued, due job row (priority 0, run_at 10, attempts 0/3). -/
def exampleRow : JobRow :=
  { id := 1, job_type := "summarize", payload := "\x7b\x7d", status := "queued",
    priority := 0, run_at := 10, next_run_at := some 10, attempts := 0, max_attempts := 3,
    last_error := Option.none, result := Option.none, created_at := some 10,
    updated_at := some 10, started_at := Option.none, finished_at := Option.none }

/-- A second queued job with a different id and a higher priority. -/
def exampleRow2 : JobRow := { exampleRow with id := 2, priority := 5 }

/-- A job in the terminal state `failed`. -/
def exampleFailedRow : JobRow :=
  { exampleRow with status := "failed", last_error := some "boom", finished_at := some 20 }

/-! ### C1 -/

theorem nodupIdMem {l : List JobRow} (h : (l.map JobRow.id).Nodup) {a b : JobRow}
    (ha : a ∈ l) (hb : b ∈ l) (hid : a.id = b.id) : a = b := by
  induction l with
  | nil => cases ha
  | cons x xs ih =>
    rw [List.map_cons, List.nodup_cons] at h
    rcases List.mem_cons.mp ha with hax | hax
    · rcases List.mem_cons.mp hb with hbx | hbx
      · rw [hax, hbx]
      · exfalso
        subst hax
        have hmem := List.mem_map_of_mem JobRow.id hbx
        rw [← hid] at hmem
        exact h.1 hmem
    · rcases List.mem_cons.mp hb with hbx | hbx
      · exfalso
        subst hbx
        have hmem := List.mem_map_of_mem JobRow.id hax
        rw [hid] at hmem
        exact h.1 hmem
      · exact ih h.2 hax hbx

/-- C1 counterexample: one eligible queued job (id 1), two concurrent
callers of the claim operation interleaved at the statement boundary (both
run their SELECT before either runs its UPDATE): both callers receive job
id 1, so a job id is returned to two callers. -/
theorem C1_counterexample :
    (runSched 100 Option.none [0, 1, 0, 1]
        ([exampleRow], [CallerState.ready, CallerState.ready])).2
      = [CallerState.finished (some 1), CallerState.finished (some 1)] := by
  decide

/-- C1 amended: when claim calls are serialized (each call completes its
SELECT and UPDATE before the next one starts), every job id is returned to
at most one caller: the returned ids of a trace of `dequeue_job` calls are
pairwise distinct. -/
theorem C1_serialized_claims_unique (now : Int) (job_types : Option (List String))
    (k : Nat) (store : List JobRow) :
    ((dequeueTrace now job_types k store).1).Pairwise
      (fun x y => ∀ a b : Int, x = some a → y = some b → a ≠ b) := by
  induction k generalizing store with
  | zero => simp [dequeueTrace]
  | succ k ih =>
    rw [dequeueTrace]
    refine List.Pairwise.cons ?_ (ih _)
    intro y hy a b hha hyb
    rcases Option.map_eq_some'.mp hha with ⟨j, hj, hja⟩
    subst hja
    have hpair : dequeue_job store now job_types =
        ((dequeue_job store now job_types).1, some j) := by
      rw [← hj, Prod.mk.eta]
    have hpost := dequeue_post_notQueued hpair
    exact Ne.symm (trace_not_returned k (dequeue_job store now job_types).1 now job_types
      hpost y hy b hyb)

/-! ### C2 -/

/-- C2 counterexample: `mark_job_done` updates by id with no status guard,
so calling it on a job in the terminal state `failed` mutates the job
(its status becomes `done`), contradicting "no queue operation other than
an explicit re-enqueue mutates it". -/
theorem C2_counterexample :
    mark_job_done [exampleFailedRow] 1 100 ≠ [exampleFailedRow] ∧
      (mark_job_done [exampleFailedRow] 1 100).map JobRow.status = ["done"] := by
  decide

/-- C2 amended: `dequeue_job` never claims nor alters a job in a terminal
state (`done` or `failed`); the id-addressed updates `mark_job_done`,
`mark_job_failed` and `update_job_progress` carry no status guard and do
mutate a terminal job when invoked on its id. -/
theorem C2_dequeue_leaves_terminal (store : List JobRow) (now : Int)
    (job_types : Option (List String)) (r : JobRow)
    (hnodup : (store.map JobRow.id).Nodup) (hr : r ∈ store)
    (hterm : r.status = "done" ∨ r.status = "failed") :
    r ∈ (dequeue_job store now job_types).1 ∧
      ∀ j, (dequeue_job store now job_types).2 = some j → j.id ≠ r.id := by
  have hnq : ∀ x ∈ store, x.id = r.id → x.status ≠ "queued" := by
    intro x hx hxid
    have hxr : x = r := nodupIdMem hnodup hx hr hxid
    subst hxr
    rcases hterm with hdone | hfail
    · rw [hdone]
      simp
    · rw [hfail]
      simp
  constructor
  · rcases dequeue_job_cases store now job_types with ⟨_, heq⟩ | ⟨row, hsel, heq⟩
    · rw [heq]
      exact hr
    · rw [heq]
      have hrowmem := selectBest_mem hsel
      have hrowelig := (List.mem_filter.mp hrowmem).2
      have hrowstore := (List.mem_filter.mp hrowmem).1
      have hne : r.id ≠ row.id := by
        intro habs
        have hrrow : r = row := nodupIdMem hnodup hr hrowstore habs
        subst hrrow
        rcases hterm with hdone | hfail
        · rw [eligible_queued hrowelig] at hdone
          exact absurd hdone (by decide)
        · rw [eligible_queued hrowelig] at hfail
          exact absurd hfail (by decide)
      exact mem_map_update hr hne
  · intro j hj
    exact dequeue_ret_not_id hnq hj

/-- C2 witness: a failed job next to a queued one is untouched by the
claim operation and is not the job it returns. -/
theorem C2_witness :
    exampleFailedRow ∈ (dequeue_job [exampleFailedRow, exampleRow2] 100 Option.none).1 ∧
      ∀ j, (dequeue_job [exampleFailedRow, exampleRow2] 100 Option.none).2 = some j →
        j.id ≠ exampleFailedRow.id :=
  C2_dequeue_leaves_terminal [exampleFailedRow, exampleRow2] 100 Option.none exampleFailedRow
    (by decide) (by decide) (by decide)

/-! ### C3 -/

def isHexChar (c : Char) : Bool :=
  c = '0' || c = '1' || c = '2' || c = '3' || c = '4' || c = '5' || c = '6' || c = '7' ||
  c = '8' || c = '9' || c = 'a' || c = 'b' || c = 'c' || c = 'd' || c = 'e' || c = 'f'

theorem hexDigitChar_hex (n : Nat) : isHexChar (hexDigitChar n) = true := by
  unfold hexDigitChar
  split <;> rfl

theorem word32HexChars_hex (w : Nat) : ∀ c ∈ word32HexChars w, isHexChar c = true := by
  intro c hc
  simp [word32HexChars] at hc
  rcases hc with h | h | h | h | h | h | h | h <;> (subst h; exact hexDigitChar_hex _)

theorem sha256hex_length (msg : List Nat) : (sha256hex msg).length = 64 := by
  show (sha256hexChars msg).length = 64
  simp [sha256hexChars, sha256words, word32HexChars]

theorem sha256hex_hex (msg : List Nat) : ∀ c ∈ (sha256hex msg).data, isHexChar c = true := by
  intro c hc
  have hc2 : c ∈ sha256hexChars msg := hc
  rcases List.mem_flatten.mp hc2 with ⟨l, hl, hcl⟩
  rcases List.mem_map.mp hl with ⟨w, _, hw⟩
  subst hw
  exact word32HexChars_hex w c hcl

mutual

theorem jsonDumpsVal_ok (isep ksep : String) :
    ∀ v : PyVal, serializableB v = true → ∃ s, jsonDumpsVal isep ksep v = Except.ok s
  | PyVal.none, _ => ⟨"null", rfl⟩
  | PyVal.bool true, _ => ⟨"true", rfl⟩
  | PyVal.bool false, _ => ⟨"false", rfl⟩
  | PyVal.int n, _ => ⟨toString n, rfl⟩
  | PyVal.str s, _ => ⟨jsonQuote s, rfl⟩
  | PyVal.obj t, h => absurd h (by simp [serializableB])
  | PyVal.list xs, h => by
    obtain ⟨parts, hp⟩ := jsonDumpsList_ok isep ksep xs (by simpa [serializableB] using h)
    exact ⟨"[" ++ String.intercalate isep parts ++ "]", by
      simp [jsonDumpsVal, hp, Bind.bind, Except.bind]⟩
  | PyVal.dict kvs, h => by
    obtain ⟨rendered, hp⟩ := jsonDumpsPairs_ok isep ksep kvs (by simpa [serializableB] using h)
    exact ⟨"\x7b" ++ String.intercalate isep
        ((sortByKey rendered).map (fun kv => jsonQuote kv.1 ++ ksep ++ kv.2)) ++ "\x7d", by
      simp [jsonDumpsVal, hp, Bind.bind, Except.bind]⟩

theorem jsonDumpsList_ok (isep ksep : String) :
    ∀ xs : List PyVal, serializableListB xs = true →
      ∃ l, jsonDumpsList isep ksep xs = Except.ok l
  | [], _ => ⟨[], rfl⟩
  | x :: xs, h => by
    have hx : serializableB x = true := by
      have := h
      simp [serializableListB, Bool.and_eq_true] at this
      exact this.1
    have hxs : serializableListB xs = true := by
      have := h
      simp [serializableListB, Bool.and_eq_true] at this
      exact this.2
    obtain ⟨s, hs⟩ := jsonDumpsVal_ok isep ksep x hx
    obtain ⟨l, hl⟩ := jsonDumpsList_ok isep ksep xs hxs
    exact ⟨s :: l, by simp [jsonDumpsList, hs, hl, Bind.bind, Except.bind]⟩

theorem jsonDumpsPairs_ok (isep ksep : String) :
    ∀ kvs : List (String × PyVal), serializablePairsB kvs = true →
      ∃ l, jsonDumpsPairs isep ksep kvs = Except.ok l
  | [], _ => ⟨[], rfl⟩
  | (k, v) :: xs, h => by
    have hv : serializableB v = true := by
      have := h
      simp [serializablePairsB, Bool.and_eq_true] at this
      exact this.1
    have hxs : serializablePairsB xs = true := by
      have := h
      simp [serializablePairsB, Bool.and_eq_true] at this
      exact this.2
    obtain ⟨s, hs⟩ := jsonDumpsVal_ok isep ksep v hv
    obtain ⟨l, hl⟩ := jsonDumpsPairs_ok isep ksep xs hxs
    exact ⟨(k, s) :: l, by simp [jsonDumpsPairs, hs, hl, Bind.bind, Except.bind]⟩

end

/-- C3 counterexample: `compute_job_fingerprint` has no try/except around
its `json.dumps` call, so a payload holding a non-serializable value makes
it raise `TypeError` instead of coercing to an empty object. -/
theorem C3_counterexample :
    compute_job_fingerprint "summarize" (some (PyVal.dict [("x", PyVal.obj 0)]))
      = Except.error PyErr.typeError := by
  rfl

/-- C3 amended: for every job_type and every JSON-serializable payload
(including the `None` default), `compute_job_fingerprint` does not raise
and returns a 64-character hex digest; the defensive empty-object coercion
lives in `_serialize_payload` (used by `enqueue_job`), not here. -/
theorem C3_fingerprint_hex_of_serializable (job_type : String) (payload : Option PyVal)
    (h : serializableB (payload.getD (PyVal.dict [])) = true) :
    ∃ s, compute_job_fingerprint job_type payload = Except.ok s ∧
      s.length = 64 ∧ ∀ c ∈ s.data, isHexChar c = true := by
  obtain ⟨ser, hser⟩ := jsonDumpsVal_ok "," ":" (payload.getD (PyVal.dict [])) h
  refine ⟨sha256hex (strBytes (pyStrip job_type ++ ":" ++ ser)), ?_,
    sha256hex_length _, sha256hex_hex _⟩
  simp [compute_job_fingerprint, hser, Bind.bind, Except.bind]

/-- C3 witness: a concrete serializable payload has a 64-character hex
fingerprint. -/
theorem C3_witness :
    serializableB ((some (PyVal.dict [("episode_id", PyVal.int 1)])).getD (PyVal.dict []))
        = true ∧
      ∃ s, compute_job_fingerprint "summarize" (some (PyVal.dict [("episode_id", PyVal.int 1)]))
          = Except.ok s ∧ s.length = 64 ∧ ∀ c ∈ s.data, isHexChar c = true :=
  ⟨by decide, C3_fingerprint_hex_of_serializable "summarize"
    (some (PyVal.dict [("episode_id", PyVal.int 1)])) (by decide)⟩

/-! ### C4 -/

/-- The eligibility predicate as the claim words it: `status = queued`,
`run_at <= now`, and `job_type` a member of the given filter when one is
given (no normalization). -/
def claimEligibleB (now : Int) (job_types : Option (List String)) (r : JobRow) : Bool :=
  r.status = "queued" && decide (r.run_at ≤ now) &&
    (match job_types with
     | Option.none => true
     | some ts => ts.contains r.job_type)

/-- C4 counterexample: with the filter `["  "]` given, no row has its
job_type in the filter, so by the claim nothing may be returned; the code
strips each entry, drops the blank ones, thereby ignores the emptied
filter, and claims the job anyway. -/
theorem C4_counterexample :
    [exampleRow].filter (claimEligibleB 100 (some ["  "])) = [] ∧
      (dequeue_job [exampleRow] 100 (some ["  "])).2 = some (claimedView exampleRow) := by
  decide

/-- C4 amended: `dequeue_job` considers exactly the rows with
`status = queued`, `run_at <= now` and, when the blank-stripped filter is
non-empty, `job_type` among the stripped entries; among them it claims the
unique best row under (priority desc, run_at asc, id asc), transitioning it
to `running` with attempts incremented by one and leaving other ids
untouched; with no eligible row it returns nothing and changes nothing. -/
theorem C4_dequeue_selection (store : List JobRow) (now : Int)
    (job_types : Option (List String)) :
    (store.filter (eligibleB now (normalizeTypes job_types)) = [] →
        dequeue_job store now job_types = (store, Option.none)) ∧
    (∀ b ∈ store, eligibleB now (normalizeTypes job_types) b = true →
      (∀ r ∈ store, eligibleB now (normalizeTypes job_types) r = true →
          r = b ∨ better b r = true) →
      (dequeue_job store now job_types).2 = some (claimedView b) ∧
        (claimedView b).status = "running" ∧
        (claimedView b).attempts = b.attempts + 1 ∧
        ({ b with status := "running", attempts := b.attempts + 1,
                  next_run_at := Option.none, started_at := some now,
                  updated_at := some now } ∈ (dequeue_job store now job_types).1) ∧
        ∀ r ∈ store, r.id ≠ b.id → r ∈ (dequeue_job store now job_types).1) := by
  constructor
  · intro hempty
    simp [dequeue_job, hempty, selectBest]
  · intro b hb helig hbest
    have hbfilter : b ∈ store.filter (eligibleB now (normalizeTypes job_types)) :=
      List.mem_filter.mpr ⟨hb, helig⟩
    have hsel : selectBest (store.filter (eligibleB now (normalizeTypes job_types)))
        = some b := by
      apply selectBest_eq_best hbfilter
      intro r hr
      exact hbest r (List.mem_filter.mp hr).1 (List.mem_filter.mp hr).2
    have heq : dequeue_job store now job_types
        = (applyClaim store b.id now, some (claimedView b)) := by
      simp [dequeue_job, hsel]
    refine ⟨by rw [heq], rfl, rfl, ?_, ?_⟩
    · rw [heq]
      have hmem := List.mem_map_of_mem
        (f := fun r =>
          if r.id = b.id then
            { r with status := "running", attempts := r.attempts + 1,
                     next_run_at := Option.none, started_at := some now,
                     updated_at := some now }
          else r) hb
      simpa [applyClaim] using hmem
    · intro r hr hne
      rw [heq]
      exact mem_map_update hr hne

/-- C4 witness: with two queued due jobs of priorities 0 and 5, the claim
operation returns the priority-5 job, transitioned to running. -/
theorem C4_witness :
    (dequeue_job [exampleRow, exampleRow2] 100 Option.none).2
      = some (claimedView exampleRow2) :=
  ((C4_dequeue_selection [exampleRow, exampleRow2] 100 Option.none).2 exampleRow2
    (by decide) (by decide) (by decide)).1

/-! ### C5 -/

theorem pyRound_ge {a : Int} {q : ℚ} (ha : (a : ℚ) ≤ q) : a ≤ pyRound q := by
  have hfa : a ≤ ⌊q⌋ := Int.le_floor.mpr ha
  by_cases h1 : q - (⌊q⌋ : ℚ) < 1 / 2
  · simp only [pyRound, if_pos h1]
    exact hfa
  · by_cases h2 : (1 : ℚ) / 2 < q - (⌊q⌋ : ℚ)
    · simp only [pyRound, if_neg h1, if_pos h2]
      omega
    · by_cases h3 : ⌊q⌋ % 2 = 0
      · simp only [pyRound, if_neg h1, if_neg h2, if_pos h3]
        exact hfa
      · simp only [pyRound, if_neg h1, if_neg h2, if_neg h3]
        omega

theorem pyRound_le {b : Int} {q : ℚ} (hb : q ≤ (b : ℚ)) : pyRound q ≤ b := by
  have hfb : ⌊q⌋ ≤ b := by
    have h := le_trans (Int.floor_le q) hb
    exact_mod_cast h
  by_cases h1 : q - (⌊q⌋ : ℚ) < 1 / 2
  · simp only [pyRound, if_pos h1]
    exact hfb
  · have hhalf : (1 : ℚ) / 2 ≤ q - (⌊q⌋ : ℚ) := not_lt.mp h1
    have hlt : ⌊q⌋ < b := by
      have hq : (⌊q⌋ : ℚ) < (b : ℚ) := by linarith
      exact_mod_cast hq
    by_cases h2 : (1 : ℚ) / 2 < q - (⌊q⌋ : ℚ)
    · simp only [pyRound, if_neg h1, if_pos h2]
      omega
    · by_cases h3 : ⌊q⌋ % 2 = 0
      · simp only [pyRound, if_neg h1, if_neg h2, if_pos h3]
        exact hfb
      · simp only [pyRound, if_neg h1, if_neg h2, if_neg h3]
        omega

theorem messageOrNull_getD (m : String) : (messageOrNull m).getD "" = m := by
  by_cases h : m = "" <;> simp [messageOrNull, h]

/-- C5: when a job with remaining attempts is failed without an explicit
backoff, then for every value the uniform jitter can take, the requeue
delay equals the base `attempts * 60` clamped to [30, 3600], jittered by
±20 percent and clamped again to [30, 3600]; with `attempts = 1` the new
`run_at` lies in [now+24, now+72] (in fact [now+48, now+72]) and always in
[now+30, now+3600]; the job is requeued with `started_at`/`finished_at`
cleared and `last_error` keeping the truncated message (an empty message is
stored as NULL, read back as empty text). -/
theorem C5_retry_backoff (store : List JobRow) (job : JobRow) (error : String)
    (uniform : ℚ → ℚ → ℚ) (now : Int)
    (hretry : job.attempts < job.max_attempts)
    (huni : ∀ lo hi : ℚ, lo ≤ hi → lo ≤ uniform lo hi ∧ uniform lo hi ≤ hi) :
    ∃ d : Int,
      (∃ base : Int, base = max 30 (min (job.attempts * 60) 3600) ∧
        ∃ j : ℚ, (base : ℚ) * (4 / 5) ≤ j ∧ j ≤ (base : ℚ) * (6 / 5) ∧
          d = max 30 (min (pyRound j) 3600)) ∧
      30 ≤ d ∧ d ≤ 3600 ∧
      (job.attempts = 1 → 24 ≤ d ∧ d ≤ 72) ∧
      (mark_job_failed store job error Option.none uniform now).2.status = "queued" ∧
      (mark_job_failed store job error Option.none uniform now).2.run_at = now + d ∧
      ∀ r ∈ store,
        (r.id = job.id →
          ∃ r2 ∈ (mark_job_failed store job error Option.none uniform now).1,
            r2.id = r.id ∧ r2.status = "queued" ∧ r2.run_at = now + d ∧
              r2.next_run_at = some (now + d) ∧ r2.started_at = Option.none ∧
              r2.finished_at = Option.none ∧ r2.last_error.getD "" = truncMessage error) ∧
        (r.id ≠ job.id → r ∈ (mark_job_failed store job error Option.none uniform now).1) := by
  have hcond : ¬ (job.max_attempts ≤ job.attempts) := not_le.mpr hretry
  have hbase30 : (30 : Int) ≤ max 30 (min (job.attempts * 60) 3600) := le_max_left _ _
  have hbase0 : (0 : ℚ) ≤ ((max 30 (min (job.attempts * 60) 3600) : Int) : ℚ) := by
    have h0 : (0 : Int) ≤ max 30 (min (job.attempts * 60) 3600) := by omega
    exact_mod_cast h0
  have hlohi : ((max 30 (min (job.attempts * 60) 3600) : Int) : ℚ) * (4 / 5) ≤
      ((max 30 (min (job.attempts * 60) 3600) : Int) : ℚ) * (6 / 5) := by
    have h45 : (4 / 5 : ℚ) ≤ 6 / 5 := by norm_num
    exact mul_le_mul_of_nonneg_left h45 hbase0
  obtain ⟨hjlo, hjhi⟩ := huni _ _ hlohi
  have hd : compute_backoff_delay job Option.none uniform =
      max 30 (min (pyRound (uniform
        (((max 30 (min (job.attempts * 60) 3600) : Int) : ℚ) * (4 / 5))
        (((max 30 (min (job.attempts * 60) 3600) : Int) : ℚ) * (6 / 5)))) 3600) := rfl
  refine ⟨compute_backoff_delay job Option.none uniform,
    ⟨max 30 (min (job.attempts * 60) 3600), rfl, _, hjlo, hjhi, hd⟩, ?_, ?_, ?_, ?_, ?_, ?_⟩
  · omega
  · omega
  · intro h1
    have hbase : max 30 (min (job.attempts * 60) 3600) = 60 := by
      rw [h1]
      decide
    rw [hbase] at hjlo hjhi hd
    have h48 : ((48 : Int) : ℚ) ≤
        uniform (((60 : Int) : ℚ) * (4 / 5)) (((60 : Int) : ℚ) * (6 / 5)) := by
      push_cast at hjlo ⊢
      linarith
    have h72 : uniform (((60 : Int) : ℚ) * (4 / 5)) (((60 : Int) : ℚ) * (6 / 5))
        ≤ ((72 : Int) : ℚ) := by
      push_cast at hjhi ⊢
      linarith
    have hr1 := pyRound_ge h48
    have hr2 := pyRound_le h72
    rw [hd]
    omega
  · simp [mark_job_failed, hcond]
  · simp [mark_job_failed, hcond]
  · intro r hr
    constructor
    · intro hid
      refine ⟨{ r with
                status := "queued",
                run_at := now + compute_backoff_delay job Option.none uniform,
                next_run_at := some (now + compute_backoff_delay job Option.none uniform),
                last_error := messageOrNull (truncMessage error),
                started_at := Option.none,
                finished_at := Option.none,
                updated_at := some now }, ?_, rfl, rfl, rfl, rfl, rfl, rfl,
        messageOrNull_getD _⟩
      simp only [mark_job_failed, if_neg hcond]
      have hmem := List.mem_map_of_mem
        (f := fun x =>
          if x.id = job.id then
            { x with
              status := "queued",
              run_at := now + compute_backoff_delay job Option.none uniform,
              next_run_at := some (now + compute_backoff_delay job Option.none uniform),
              last_error := messageOrNull (truncMessage error),
              started_at := Option.none,
              finished_at := Option.none,
              updated_at := some now }
          else x) hr
      simpa [hid] using hmem
    · intro hne
      simp only [mark_job_failed, if_neg hcond]
      exact mem_map_update hr hne

/-- A running job after one claim (attempts 1 of 3). -/
def exampleRunningRow : JobRow :=
  { exampleRow with status := "running", attempts := 1, started_at := some 20 }

/-- C5 witness: failing the attempts-1 running job at time 1000 with jitter
pinned to the low end requeues it with a delay in range. -/
theorem C5_witness :
    ∃ d : Int,
      (∃ base : Int, base = max 30 (min (exampleRunningRow.attempts * 60) 3600) ∧
        ∃ j : ℚ, (base : ℚ) * (4 / 5) ≤ j ∧ j ≤ (base : ℚ) * (6 / 5) ∧
          d = max 30 (min (pyRound j) 3600)) ∧
      30 ≤ d ∧ d ≤ 3600 ∧
      (exampleRunningRow.attempts = 1 → 24 ≤ d ∧ d ≤ 72) ∧
      (mark_job_failed [exampleRow] exampleRunningRow "boom" Option.none
          (fun lo _ => lo) 1000).2.status = "queued" ∧
      (mark_job_failed [exampleRow] exampleRunningRow "boom" Option.none
          (fun lo _ => lo) 1000).2.run_at = 1000 + d ∧
      ∀ r ∈ [exampleRow],
        (r.id = exampleRunningRow.id →
          ∃ r2 ∈ (mark_job_failed [exampleRow] exampleRunningRow "boom" Option.none
              (fun lo _ => lo) 1000).1,
            r2.id = r.id ∧ r2.status = "queued" ∧ r2.run_at = 1000 + d ∧
              r2.next_run_at = some (1000 + d) ∧ r2.started_at = Option.none ∧
              r2.finished_at = Option.none ∧ r2.last_error.getD "" = truncMessage "boom") ∧
        (r.id ≠ exampleRunningRow.id →
          r ∈ (mark_job_failed [exampleRow] exampleRunningRow "boom" Option.none
              (fun lo _ => lo) 1000).1) :=
  C5_retry_backoff [exampleRow] exampleRunningRow "boom" (fun lo _ => lo) 1000
    (by decide) (fun lo hi h => ⟨le_refl lo, h⟩)

/-! ### C6 -/

/-- C6: when a job has exhausted its attempts (`attempts >= max_attempts`),
`mark_job_failed` makes the failure permanent: every row of that id gets
`status = failed`, `finished_at = now`, `last_error` holding the truncated
message (an empty message stored as NULL, read back as empty text),
`run_at` unchanged and `next_run_at` cleared (nothing rescheduled); other
ids are untouched; and no subsequent sequence of claim calls ever returns
that job id. -/
theorem C6_terminal_failure (store : List JobRow) (job : JobRow) (error : String)
    (backoff_seconds : Option Int) (uniform : ℚ → ℚ → ℚ) (now : Int)
    (hexhausted : job.max_attempts ≤ job.attempts) :
    (mark_job_failed store job error backoff_seconds uniform now).2.status = "failed" ∧
    (∀ r ∈ store,
      (r.id = job.id →
        ∃ r2 ∈ (mark_job_failed store job error backoff_seconds uniform now).1,
          r2.id = r.id ∧ r2.status = "failed" ∧ r2.finished_at = some now ∧
            r2.last_error.getD "" = truncMessage error ∧ r2.run_at = r.run_at ∧
            r2.next_run_at = Option.none) ∧
      (r.id ≠ job.id →
        r ∈ (mark_job_failed store job error backoff_seconds uniform now).1)) ∧
    ∀ (k : Nat) (now2 : Int) (job_types : Option (List String)),
      ∀ x ∈ (dequeueTrace now2 job_types k
          (mark_job_failed store job error backoff_seconds uniform now).1).1,
        ∀ b : Int, x = some b → b ≠ job.id := by
  have heq1 : (mark_job_failed store job error backoff_seconds uniform now).1 =
      store.map (fun r =>
        if r.id = job.id then
          { r with
            status := "failed",
            finished_at := some now,
            last_error := messageOrNull (truncMessage error),
            next_run_at := Option.none,
            updated_at := some now }
        else r) := by
    simp [mark_job_failed, hexhausted]
  have hterm : ∀ r2 ∈ (mark_job_failed store job error backoff_seconds uniform now).1,
      r2.id = job.id → r2.status ≠ "queued" := by
    rw [heq1]
    intro r2 hr2 hrid
    rcases List.mem_map.mp hr2 with ⟨x0, hx0, hfx⟩
    by_cases hxid : x0.id = job.id
    · rw [← hfx]
      simp [hxid]
    · rw [if_neg hxid] at hfx
      subst hfx
      exact absurd hrid hxid
  refine ⟨by simp [mark_job_failed, hexhausted], ?_, ?_⟩
  · intro r hr
    constructor
    · intro hid
      refine ⟨{ r with
                status := "failed",
                finished_at := some now,
                last_error := messageOrNull (truncMessage error),
                next_run_at := Option.none,
                updated_at := some now }, ?_, rfl, rfl, rfl, messageOrNull_getD _, rfl, rfl⟩
      rw [heq1]
      have hmem := List.mem_map_of_mem
        (f := fun x =>
          if x.id = job.id then
            { x with
              status := "failed",
              finished_at := some now,
              last_error := messageOrNull (truncMessage error),
              next_run_at := Option.none,
              updated_at := some now }
          else x) hr
      simpa [hid] using hmem
    · intro hne
      rw [heq1]
      exact mem_map_update hr hne
  · intro k now2 job_types x hx b hxb
    exact trace_not_returned k
      (mark_job_failed store job error backoff_seconds uniform now).1 now2 job_types
      hterm x hx b hxb

/-- A running job on its final attempt (attempts 3 of 3). -/
def exampleExhaustedRow : JobRow :=
  { exampleRow with status := "running", attempts := 3, started_at := some 20 }

/-- C6 witness: failing the attempts-3-of-3 job is permanent and the id is
never claimable afterwards. -/
theorem C6_witness :
    (mark_job_failed [exampleRow] exampleExhaustedRow "boom" Option.none
        (fun lo _ => lo) 1000).2.status = "failed" ∧
    (∀ r ∈ [exampleRow],
      (r.id = exampleExhaustedRow.id →
        ∃ r2 ∈ (mark_job_failed [exampleRow] exampleExhaustedRow "boom" Option.none
            (fun lo _ => lo) 1000).1,
          r2.id = r.id ∧ r2.status = "failed" ∧ r2.finished_at = some 1000 ∧
            r2.last_error.getD "" = truncMessage "boom" ∧ r2.run_at = r.run_at ∧
            r2.next_run_at = Option.none) ∧
      (r.id ≠ exampleExhaustedRow.id →
        r ∈ (mark_job_failed [exampleRow] exampleExhaustedRow "boom" Option.none
            (fun lo _ => lo) 1000).1)) ∧
    ∀ (k : Nat) (now2 : Int) (job_types : Option (List String)),
      ∀ x ∈ (dequeueTrace now2 job_types k
          (mark_job_failed [exampleRow] exampleExhaustedRow "boom" Option.none
            (fun lo _ => lo) 1000).1).1,
        ∀ b : Int, x = some b → b ≠ exampleExhaustedRow.id :=
  C6_terminal_failure [exampleRow] exampleExhaustedRow "boom" Option.none
    (fun lo _ => lo) 1000 (by decide)

/-! ### C7 -/

/-- C7 counterexample: `enqueue_job` performs no validation of `job_type`:
called with the empty string it inserts a row for it rather than rejecting
the call. -/
theorem C7_counterexample :
    ((enqueue_job [] 1 100 "" Option.none 0 Option.none Option.none).1).length = 1 ∧
      ((enqueue_job [] 1 100 "" Option.none 0 Option.none Option.none).1).map
        JobRow.job_type = [""] := by
  decide

/-- C7 amended: the service-level `enqueue_job` does not validate
`job_type` (every string, the empty one included, gets a row inserted);
the non-empty validation lives in the HTTP layer (`JobSpec`), whose
validator rejects a blank job_type before anything is inserted. With
`run_at` unspecified it defaults to the current time, and the inserted row
has `status = queued`, `attempts = 0` and is returned with its generated id
and timestamps. -/
theorem C7_enqueue_inserts (store : List JobRow) (nextId now : Int) (job_type : String)
    (payload : Option PyVal) (priority : Int) (max_attempts : Option Int) :
    (enqueue_job store nextId now job_type payload priority Option.none
        max_attempts).2.2.id = nextId ∧
    (enqueue_job store nextId now job_type payload priority Option.none
        max_attempts).2.2.status = "queued" ∧
    (enqueue_job store nextId now job_type payload priority Option.none
        max_attempts).2.2.attempts = 0 ∧
    (enqueue_job store nextId now job_type payload priority Option.none
        max_attempts).2.2.run_at = now ∧
    (enqueue_job store nextId now job_type payload priority Option.none
        max_attempts).2.2.created_at = some now ∧
    (enqueue_job store nextId now job_type payload priority Option.none
        max_attempts).2.2.updated_at = some now ∧
    (enqueue_job store nextId now job_type payload priority Option.none
        max_attempts).2.2.job_type = job_type ∧
    (enqueue_job store nextId now job_type payload priority Option.none
        max_attempts).1 = store ++
      [(enqueue_job store nextId now job_type payload priority Option.none
        max_attempts).2.2] ∧
    (enqueue_job store nextId now job_type payload priority Option.none
        max_attempts).2.1 = nextId + 1 ∧
    jobSpecJobType "" = Except.error "job_type cannot be empty" :=
  ⟨rfl, rfl, rfl, rfl, rfl, rfl, rfl, rfl, rfl, rfl⟩

/-! ### C8 -/

/-- C8: the enqueue endpoint cannot deliver the claimed dedupe round trip:
its insert path (lines 488-498 of `server/api/jobs.py`) reads the undefined
names `row` and `queued_job`, so the first enqueue of a job raises
`NameError` after the row was already inserted on the autocommit
connection; the module additionally evaluates a stray bare `sa` expression
at import time. -/
theorem C8_insert_path_raises :
    (enqueue_jobs true 0 50 [("summarize", PyVal.dict [("episode_id", PyVal.int 1)])]
        { queue := [], nextId := 1, history := [] }).2 = Except.error PyErr.nameError ∧
      (enqueue_jobs true 0 50 [("summarize", PyVal.dict [("episode_id", PyVal.int 1)])]
        { queue := [], nextId := 1, history := [] }).1.queue.length = 1 :=
  ⟨rfl, rfl⟩

/-! ### C9 -/

/-- Evaluation of `buildProgress` when `total_chunks` is positive: the
division is reached with a non-zero divisor. -/
theorem buildProgress_eq_pos (now t c : Int) (cur : Option Int) (msg : Option String)
    (ht : 0 < t) :
    buildProgress now t c cur msg = Except.ok
      { total_chunks := max t 0
        completed_chunks := max 0 (min c (max t 0))
        current_chunk := cur
        percent_complete := roundTo4 (min 1
          (((max 0 (min c (max t 0)) : Int) : ℚ) / ((max t 0 : Int) : ℚ)))
        updated_at := now
        message := if pyStrip (msg.getD "") = "" then Option.none
          else some (pyStrip (msg.getD "")) } := by
  have h1 : 0 < max t 0 := by omega
  have hz : ((max t 0 : Int) : ℚ) ≠ 0 := by
    have h0 : (0 : ℚ) < ((max t 0 : Int) : ℚ) := by exact_mod_cast h1
    exact ne_of_gt h0
  simp only [buildProgress, if_pos h1, pyDiv, if_neg hz]
  rfl

/-- Evaluation of `buildProgress` when `total_chunks` is not positive: the
guarded division is skipped and the percentage is zero. -/
theorem buildProgress_eq_nonpos (now t c : Int) (cur : Option Int) (msg : Option String)
    (ht : t ≤ 0) :
    buildProgress now t c cur msg = Except.ok
      { total_chunks := max t 0
        completed_chunks := max 0 c
        current_chunk := cur
        percent_complete := roundTo4 0
        updated_at := now
        message := if pyStrip (msg.getD "") = "" then Option.none
          else some (pyStrip (msg.getD "")) } := by
  have h1 : ¬ (0 < max t 0) := by omega
  simp only [buildProgress, if_neg h1]
  rfl

theorem buildProgress_ok (now : Int) (total_chunks completed_chunks : Int)
    (current_chunk : Option Int) (message : Option String) :
    ∃ snap, buildProgress now total_chunks completed_chunks current_chunk message
      = Except.ok snap := by
  by_cases h : 0 < total_chunks
  · exact ⟨_, buildProgress_eq_pos now total_chunks completed_chunks current_chunk message h⟩
  · exact ⟨_, buildProgress_eq_nonpos now total_chunks completed_chunks current_chunk message
      (by omega)⟩

/-- C9: `update_job_progress` never changes anything but the `result` and
`updated_at` columns of the addressed row: every other field of every row
is preserved, and rows of other ids are untouched entirely. -/
theorem C9_progress_frame (store : List JobRow) (job_id total_chunks completed_chunks : Int)
    (current_chunk : Option Int) (message : Option String) (now : Int) :
    ∃ st2, update_job_progress store job_id total_chunks completed_chunks current_chunk
        message now = Except.ok st2 ∧
      st2.length = store.length ∧
      (∀ i : Nat, ∀ r r2, store[i]? = some r → st2[i]? = some r2 →
        r2.id = r.id ∧ r2.job_type = r.job_type ∧ r2.payload = r.payload ∧
          r2.status = r.status ∧ r2.priority = r.priority ∧ r2.run_at = r.run_at ∧
          r2.next_run_at = r.next_run_at ∧ r2.attempts = r.attempts ∧
          r2.max_attempts = r.max_attempts ∧ r2.last_error = r.last_error ∧
          r2.created_at = r.created_at ∧ r2.started_at = r.started_at ∧
          r2.finished_at = r.finished_at) ∧
      (∀ r ∈ store, r.id ≠ job_id → r ∈ st2) := by
  obtain ⟨snap, hsnap⟩ :=
    buildProgress_ok now total_chunks completed_chunks current_chunk message
  refine ⟨store.map (fun r =>
      if r.id = job_id then { r with result := some snap, updated_at := some now } else r),
    ?_, by simp, ?_, ?_⟩
  · simp [update_job_progress, hsnap, Bind.bind, Except.bind]
  · intro i r r2 hr hr2
    rw [List.getElem?_map, hr] at hr2
    have hr2eq : r2 =
        if r.id = job_id then { r with result := some snap, updated_at := some now }
        else r := by
      simpa using hr2.symm
    subst hr2eq
    by_cases hid : r.id = job_id <;> simp [hid]
  · intro r hr hne
    exact mem_map_update hr hne

/-- C9 witness: a concrete progress update on a one-row store. -/
theorem C9_witness :
    ∃ st2, update_job_progress [exampleFailedRow] 1 5 2 (some 1) (some "working") 77
        = Except.ok st2 ∧
      st2.length = [exampleFailedRow].length ∧
      (∀ i : Nat, ∀ r r2, [exampleFailedRow][i]? = some r → st2[i]? = some r2 →
        r2.id = r.id ∧ r2.job_type = r.job_type ∧ r2.payload = r.payload ∧
          r2.status = r.status ∧ r2.priority = r.priority ∧ r2.run_at = r.run_at ∧
          r2.next_run_at = r.next_run_at ∧ r2.attempts = r.attempts ∧
          r2.max_attempts = r.max_attempts ∧ r2.last_error = r.last_error ∧
          r2.created_at = r.created_at ∧ r2.started_at = r.started_at ∧
          r2.finished_at = r.finished_at) ∧
      (∀ r ∈ [exampleFailedRow], r.id ≠ 1 → r ∈ st2) :=
  C9_progress_frame [exampleFailedRow] 1 5 2 (some 1) (some "working") 77

/-! ### C10 -/

theorem mem_map_update_self {g : JobRow → JobRow} {store : List JobRow} {r : JobRow}
    {jid : Int} (hr : r ∈ store) (hid : r.id = jid) :
    g r ∈ store.map (fun x => if x.id = jid then g x else x) := by
  have h := List.mem_map_of_mem (f := fun x => if x.id = jid then g x else x) hr
  simpa [hid] using h

theorem update_job_progress_eq (store : List JobRow) (job_id t c : Int)
    (cur : Option Int) (msg : Option String) (now : Int) (snap : ProgressSnapshot)
    (h : buildProgress now t c cur msg = Except.ok snap) :
    update_job_progress store job_id t c cur msg now = Except.ok (store.map (fun r =>
      if r.id = job_id then { r with result := some snap, updated_at := some now }
      else r)) := by
  simp only [update_job_progress, h]
  rfl

/-- The clamping performed by the code (`completed` clamped into
`[0, total]`, then `min 1` of the quotient) equals the claim form
(the raw quotient clamped into `[0, 1]`). -/
theorem clamp_div_eq (t c : Int) (ht : 0 < t) :
    min 1 (((max 0 (min c (max t 0)) : Int) : ℚ) / ((max t 0 : Int) : ℚ))
      = max 0 (min 1 ((c : ℚ) / (t : ℚ))) := by
  have hmax : max t 0 = t := by omega
  rw [hmax]
  have htq : (0 : ℚ) < (t : ℚ) := by exact_mod_cast ht
  rcases le_or_lt c 0 with hc | hc
  · have hclamp : max 0 (min c t) = 0 := by omega
    rw [hclamp]
    have hcq : (c : ℚ) ≤ 0 := by exact_mod_cast hc
    have hquot : (c : ℚ) / (t : ℚ) ≤ 0 := div_nonpos_iff.mpr (Or.inr ⟨hcq, le_of_lt htq⟩)
    rw [min_eq_right (le_trans hquot zero_le_one), max_eq_left hquot]
    norm_num
  · rcases le_or_lt t c with htc | hct
    · have hclamp : max 0 (min c t) = t := by omega
      rw [hclamp]
      have hquot1 : (1 : ℚ) ≤ (c : ℚ) / (t : ℚ) := by
        rw [le_div_iff₀ htq]
        exact_mod_cast by omega
      rw [div_self (ne_of_gt htq), min_self, min_eq_left hquot1,
        max_eq_right zero_le_one]
    · have hclamp : max 0 (min c t) = c := by omega
      rw [hclamp]
      have hge : (0 : ℚ) ≤ (c : ℚ) / (t : ℚ) :=
        div_nonneg (by exact_mod_cast le_of_lt hc) (le_of_lt htq)
      have hle : (c : ℚ) / (t : ℚ) ≤ 1 := by
        rw [div_le_one htq]
        exact_mod_cast le_of_lt hct
      rw [min_eq_right hle, max_eq_right hge]

/-- C10 counterexample: with `total_chunks = 3, completed_chunks = 1` the
stored snapshot has `percent_complete` equal to the 4-digit rounding
0.3333, which differs from the exact clamped ratio 1/3 the claim
prescribes. -/
theorem C10_counterexample :
    buildProgress 7 3 1 Option.none Option.none = Except.ok
      { total_chunks := 3, completed_chunks := 1, current_chunk := Option.none,
        percent_complete := 3333 / 10000, updated_at := 7, message := Option.none } ∧
      ((3333 : ℚ) / 10000) ≠ (1 : ℚ) / 3 := by
  constructor
  · rw [buildProgress_eq_pos 7 3 1 Option.none Option.none (by norm_num)]
    have h1 : (max 0 (min 1 (max 3 0)) : Int) = 1 := by decide
    have h2 : (max 3 0 : Int) = 3 := by decide
    rw [h1, h2]
    have h3 : (((1 : Int) : ℚ) / ((3 : Int) : ℚ)) = 1 / 3 := by norm_num
    rw [h3]
    have h4 : min (1 : ℚ) (1 / 3) = 1 / 3 := by norm_num
    rw [h4]
    have hf : ⌊((1 : ℚ) / 3 * 10000)⌋ = 3333 := by
      rw [Int.floor_eq_iff]
      norm_num
    have h5 : roundTo4 ((1 : ℚ) / 3) = 3333 / 10000 := by
      simp only [roundTo4, pyRound, hf]
      norm_num
    rw [h5]
    rfl
  · norm_num

/-- C10 amended: `update_job_progress` never raises (the division is
guarded); with `total_chunks <= 0` the stored snapshot has
`percent_complete = 0`, and with `total_chunks > 0` it stores the ratio
clamped to [0, 1] and then rounded to 4 decimal digits. -/
theorem C10_progress_guarded (store : List JobRow) (job_id : Int)
    (total_chunks completed_chunks : Int) (current_chunk : Option Int)
    (message : Option String) (now : Int) :
    ∃ snap, buildProgress now total_chunks completed_chunks current_chunk message
        = Except.ok snap ∧
      snap.percent_complete =
        (if 0 < total_chunks then
          roundTo4 (max 0 (min 1 ((completed_chunks : ℚ) / (total_chunks : ℚ))))
        else 0) ∧
      ∃ st2, update_job_progress store job_id total_chunks completed_chunks current_chunk
          message now = Except.ok st2 ∧
        ∀ r ∈ store, r.id = job_id →
          { r with result := some snap, updated_at := some now } ∈ st2 := by
  by_cases ht : 0 < total_chunks
  · have hb := buildProgress_eq_pos now total_chunks completed_chunks current_chunk message ht
    refine ⟨_, hb, ?_, ?_⟩
    · rw [if_pos ht]
      exact congrArg roundTo4 (clamp_div_eq total_chunks completed_chunks ht)
    · refine ⟨_, update_job_progress_eq store job_id total_chunks completed_chunks
        current_chunk message now _ hb, ?_⟩
      intro r hr hid
      exact mem_map_update_self hr hid
  · have hb := buildProgress_eq_nonpos now total_chunks completed_chunks current_chunk
      message (by omega)
    refine ⟨_, hb, ?_, ?_⟩
    · rw [if_neg ht]
      show roundTo4 0 = 0
      have hf : ⌊((0 : ℚ) * 10000)⌋ = 0 := by norm_num
      simp only [roundTo4, pyRound, hf]
      norm_num
    · refine ⟨_, update_job_progress_eq store job_id total_chunks completed_chunks
        current_chunk message now _ hb, ?_⟩
      intro r hr hid
      exact mem_map_update_self hr hid

end PodcastPlow
